import Mathlib

/-!
# nullmailer-send: the delivery engine of `src/send.cc`

A shallow embedding of `send.cc`: the globals of the translation unit become the
fields of `State`, the functions of the file from `remote::remote` to `do_select`
become functions on `State` (the child side `remote::exec` and the start-up code of
`main` are outside the model; `catch_alrm` is the `alrm` input of `do_select`), and
everything the process learns from outside (system-call results, the clock, the
configuration store, signals) is an explicit input.

Conventions.
* `int` values are `Int`; the one arithmetic operation of the file that can leave
  the 32-bit range (`pausetime *= 2`) is wrapped by `wrapInt`.  Signed overflow is
  undefined in C++; the wrap is what the usual two's-complement targets compute.
* `time_t` is 64 bits wide; the difference of two clock readings is taken exactly.
* A system call's result is an input; on success its POSIX post-condition is
  applied to the modelled directories, on failure nothing changes.
-/

set_option linter.dupNamespace false

namespace Nullmailer

/-! ## Strings -/

/-- Byte strings (`mystring`). -/
abbrev mystring := List Char

/-- Modelled from the spec: `mystring::operator[]`, whose class is declared outside
`send.cc`.  The buffer is NUL-terminated, so reading at the end of the string gives
the terminator. -/
def mystring_at (s : mystring) (i : Nat) : Char := s.getD i (Char.ofNat 0)

/-- Modelled from the spec: `mystring::right(offset)`, declared outside `send.cc`:
the string without its first `offset` characters ("each with any leading `--`
stripped"). -/
def mystring_right (s : mystring) (offset : Nat) : mystring := s.drop offset

/-! ## Data model -/

/-- The result type `tristate` of a delivery attempt. -/
inductive tristate where
  | tempfail
  | permfail
  | success
  deriving DecidableEq, Repr

/-- The queue entry `struct message`. -/
structure message where
  timestamp : Int
  filename : mystring
  deriving DecidableEq, Repr

/-- The smarthost description `struct remote`. -/
structure remote where
  host : mystring
  proto : mystring
  program : mystring
  options : mystring
  deriving DecidableEq, Repr

/-- The constant `remote::default_proto`. -/
def default_proto : mystring := ['s', 'm', 't', 'p']

/-- The body of the loop `for(++iter; iter; ++iter)` of the constructor: one option
word is appended to the blob, without a leading `--`, and followed by a newline. -/
def remote_add_option (options : mystring) (word : mystring) : mystring :=
  let option := if mystring_at word 0 = '-' ∧ mystring_at word 1 = '-'
    then mystring_right word 2 else word
  (options ++ option) ++ ['\n']

/-- The constructor `remote::remote(const slist&)`.  `PROTOCOL_DIR` comes from
`defines.h`.  On an empty list the constructor dereferences the end iterator; that
is `none` here. -/
def remote.remote (PROTOCOL_DIR : mystring) : List mystring → Option Nullmailer.remote
  | [] => none
  | host :: rest =>
    let options := (['h', 'o', 's', 't', '='] ++ host) ++ ['\n']
    match rest with
    | [] =>
      some ⟨host, default_proto, PROTOCOL_DIR ++ default_proto, options ++ ['\n']⟩
    | proto :: opts =>
      some ⟨host, proto, PROTOCOL_DIR ++ proto,
        (opts.foldl remote_add_option options) ++ ['\n']⟩


/-! ## Constants and inputs from outside `send.cc` -/

/-- What `send.cc` takes from headers that are not part of the file: `PROTOCOL_DIR`
(`defines.h`), `ERR_PERMANENT_FLAG` (`errcodes.h`), `me` (`hostname.h`),
`parse_args` (`argparse.h`, `none` when it returns false), and the system's
`SIGCHLD`, `WIFEXITED` and `WEXITSTATUS`. -/
structure Consts where
  PROTOCOL_DIR : mystring
  ERR_PERMANENT_FLAG : Nat
  me : mystring
  parse_args : mystring → Option (List mystring)
  SIGCHLD : Int
  WIFEXITED : Int → Bool
  WEXITSTATUS : Int → Nat

/-- The configuration store as one sweep reads it: `config_read("helohost")`, the
four `config_readint` keys (`none` when the call returns false) and the lines
`config_readlist("remotes")` delivers (none when it fails). -/
structure Config where
  helohost : Option mystring
  pausetime : Option Int
  maxpause : Option Int
  sendtimeout : Option Int
  queuelifetime : Option Int
  remotes : List mystring
  deriving DecidableEq, Repr

/-- The result of `stat`: the modification time and whether `st_mode` says
regular file. -/
structure stat where
  st_mtime : Int
  is_regular : Bool
  deriving DecidableEq, Repr

/-- One entry `readdir` returns for the queue directory, together with what
`stat(name)` answers for it (`none`: `stat` fails). -/
structure dirent where
  d_name : mystring
  st : Option stat
  deriving DecidableEq, Repr

/-- The lines written to `fout`, one constructor per message text of `send.cc`. -/
inductive LogLine where
  /-- "No remote hosts listed for delivery" -/
  | no_remotes
  /-- "Rescanning queue." -/
  | rescanning
  /-- "Cannot open queue directory: " and the error -/
  | cannot_open_queue
  /-- "Could not stat NAME, skipping." -/
  | could_not_stat (name : mystring)
  /-- "Sending timed out, killing protocol" -/
  | timed_out
  /-- "Error waiting for the child signal: " and the error -/
  | wait_error
  /-- "Error catching the child process return value: " and the error -/
  | reap_error
  /-- "Sending failed: " and `errorstr(status)` -/
  | sending_failed (status : Nat)
  /-- "Sent file." -/
  | sent_file
  /-- "Sending process crashed or was killed." -/
  | crashed
  /-- "Can't open file 'NAME'" -/
  | cant_open_file (name : mystring)
  /-- "Can't create pipe" -/
  | cant_create_pipe
  /-- "Starting delivery: protocol: P host: H file: F" -/
  | starting_delivery (proto host file : mystring)
  /-- "Fork failed: " and the error -/
  | fork_failed
  /-- "Warning: Writing options to protocol failed" -/
  | write_warning
  /-- "Moving message NAME into failed" -/
  | moving_message (name : mystring)
  /-- "Can't rename file: " and the error -/
  | cant_rename
  /-- "Could not load the config" -/
  | could_not_load_config
  /-- "Starting delivery, N message(s) in queue." -/
  | starting_sweep (count : Nat)
  /-- "Can't unlink file: " and the error -/
  | cant_unlink
  /-- "Delivery complete, N message(s) remain." -/
  | delivery_complete (count : Nat)
  /-- "Trigger pulled." -/
  | trigger_pulled
  /-- "Could not open trigger file: " and the error -/
  | could_not_open_trigger
  /-- "Internal error in select: " and the error -/
  | select_error
  deriving DecidableEq, Repr

/-- What the outside world does during one call of `send_one`: whether `open`,
`pipe`, `fork` and the `write` of the options succeed, the values the successive
calls of `selfpipe.waitsig(sendtimeout)` return (when the list is used up no further
signal arrives and the call times out with 0), and the result of `waitpid`
(`none`: -1, otherwise the status word). -/
structure Attempt where
  open_ok : Bool
  pipe_ok : Bool
  fork_ok : Bool
  write_ok : Bool
  waitsig : List Int
  waitpid : Option Int
  deriving DecidableEq, Repr

/-- The outside world during a sweep, indexed by the number of delivery attempts
made so far: the course of that attempt, the reading of `time(0)`, and whether
`rename` and `unlink` succeed. -/
structure Env where
  attempt : Nat → Attempt
  time : Nat → Int
  rename_ok : Nat → Bool
  unlink_ok : Nat → Bool

/-- What happens while `do_select` is blocked in `select`: its return value `s`,
whether `errno` is `EINTR`, whether the `SIGALRM` handler `catch_alrm` ran, the
descriptor `open` returns when the trigger is reopened, and whether `opendir(".")`
succeeds afterwards. -/
structure SelectEvent where
  s : Int
  eintr : Bool
  alrm : Bool
  trigger_fd : Int
  opendir_ok : Bool
  deriving DecidableEq, Repr

/-- The globals of `send.cc` (`remotes` to `trigger`), the parts of the world the
file acts on (the `HELOHOST` variable, the queue directory that is the working
directory, the names in `../failed/`, the log `fout`), and two records kept for
stating properties: the number of delivery attempts made and the list of
`send_one` calls as (remote, message) pairs. -/
structure State where
  remotes : List remote
  minpause : Int
  pausetime : Int
  maxpause : Int
  sendtimeout : Int
  queuelifetime : Int
  messages : List message
  reload_messages : Bool
  trigger : Int
  HELOHOST : mystring
  queue : List dirent
  failed : List mystring
  fout : List LogLine
  clock : Nat
  attempts : List (remote × message)
  deriving DecidableEq, Repr

/-- The static initialisers of the globals, around the given world. -/
def State.init (queue : List dirent) (failed : List mystring) : State :=
  { remotes := [], minpause := 60, pausetime := 60, maxpause := 24*60*60,
    sendtimeout := 60*60, queuelifetime := 7*24*60*60, messages := [],
    reload_messages := false, trigger := 0, HELOHOST := [], queue := queue,
    failed := failed, fout := [], clock := 0, attempts := [] }

/-- A value brought back into the range of a 32-bit `int`. -/
def wrapInt (x : Int) : Int := (x + 2147483648) % 4294967296 - 2147483648

/-- The backoff invariant of the specification. -/
def backoff_ok (st : State) : Prop :=
  st.minpause ≤ st.pausetime ∧ st.pausetime ≤ st.maxpause

instance (st : State) : Decidable (backoff_ok st) := by
  unfold backoff_ok; infer_instance

/-! ## Configuration -/

/-- The loop of `load_remotes` over the lines of the `remotes` file: comment lines
and lines `parse_args` rejects are skipped, every other line is appended as a
`remote`. -/
def load_remotes_loop (c : Consts) : List mystring → List remote → Option (List remote)
  | [], acc => some acc
  | r :: rest, acc =>
    if mystring_at r 0 = '#' then load_remotes_loop c rest acc
    else match c.parse_args r with
      | none => load_remotes_loop c rest acc
      | some parts =>
        match remote.remote c.PROTOCOL_DIR parts with
        | none => none
        | some rem => load_remotes_loop c rest (acc ++ [rem])

/-- The function `load_remotes`. -/
def load_remotes (c : Consts) (cfg : Config) (st : State) : Option (Bool × State) :=
  match load_remotes_loop c cfg.remotes [] with
  | none => none
  | some rs =>
    let st1 := { st with remotes := rs }
    if rs.length = 0 then
      some (false, { st1 with fout := st1.fout ++ [LogLine.no_remotes] })
    else some (true, st1)

/-- The function `load_config`. -/
def load_config (c : Consts) (cfg : Config) (st : State) : Option (Bool × State) :=
  let hh := match cfg.helohost with
    | some h => h
    | none => c.me
  let oldminpause := st.minpause
  let minpause := match cfg.pausetime with
    | some v => v
    | none => 60
  let maxpause := match cfg.maxpause with
    | some v => v
    | none => 24*60*60
  let sendtimeout := match cfg.sendtimeout with
    | some v => v
    | none => 60*60
  let queuelifetime := match cfg.queuelifetime with
    | some v => v
    | none => 7*24*60*60
  let pausetime := if minpause ≠ oldminpause then minpause else st.pausetime
  load_remotes c cfg
    { st with HELOHOST := hh, minpause := minpause, maxpause := maxpause,
              sendtimeout := sendtimeout, queuelifetime := queuelifetime,
              pausetime := pausetime }

/-! ## The queue scan -/

/-- The loop `while((entry = readdir(dir)) != 0)` of `load_messages` over the
entries of the directory. -/
def load_messages_loop : List dirent → State → State
  | [], st => st
  | entry :: rest, st =>
    let name := entry.d_name
    match entry.st with
    | none =>
      load_messages_loop rest { st with fout := st.fout ++ [LogLine.could_not_stat name] }
    | some s =>
      let m : message := { timestamp := s.st_mtime, filename := name }
      load_messages_loop rest { st with messages := st.messages ++ [m] }

/-- The function `load_messages`. -/
def load_messages (opendir_ok : Bool) (st : State) : Bool × State :=
  let st1 := { st with reload_messages := false, fout := st.fout ++ [LogLine.rescanning] }
  if !opendir_ok then
    (false, { st1 with fout := st1.fout ++ [LogLine.cannot_open_queue] })
  else
    (true, load_messages_loop st1.queue { st1 with messages := [] })

/-! ## One delivery attempt -/

/-- The lines 226 to 247 of `catchsender`: the child is reaped with `waitpid` and
its status is turned into a result and a log line. -/
def catchsender_reap (c : Consts) (waitpid : Option Int) : tristate × List LogLine :=
  match waitpid with
  | none => (tristate.tempfail, [LogLine.reap_error])
  | some status =>
    if c.WIFEXITED status then
      let status := c.WEXITSTATUS status
      if status ≠ 0 then
        (if status &&& c.ERR_PERMANENT_FLAG ≠ 0 then tristate.permfail else tristate.tempfail,
          [LogLine.sending_failed status])
      else (tristate.success, [LogLine.sent_file])
    else (tristate.tempfail, [LogLine.crashed])

/-- The function `catchsender`: the loop over the results of
`selfpipe.waitsig(sendtimeout)`, then the reaping of the child. -/
def catchsender (c : Consts) (waitpid : Option Int) : List Int → tristate × List LogLine
  | [] => (tristate.tempfail, [LogLine.timed_out])
  | sig :: rest =>
    if sig = 0 then (tristate.tempfail, [LogLine.timed_out])
    else if sig = -1 then (tristate.tempfail, [LogLine.wait_error])
    else if sig = c.SIGCHLD then catchsender_reap c waitpid
    else catchsender c waitpid rest

/-- The function `send_one`, in the parent process. -/
def send_one (c : Consts) (a : Attempt) (filename : mystring) (rem : remote) :
    tristate × List LogLine :=
  if !a.open_ok then (tristate.tempfail, [LogLine.cant_open_file filename])
  else if !a.pipe_ok then (tristate.tempfail, [LogLine.cant_create_pipe])
  else
    let started := [LogLine.starting_delivery rem.proto rem.host filename]
    if !a.fork_ok then (tristate.tempfail, started ++ [LogLine.fork_failed])
    else
      let warned := if !a.write_ok then started ++ [LogLine.write_warning] else started
      let res := catchsender c a.waitpid a.waitsig
      (res.1, warned ++ res.2)

/-! ## The sweep -/

/-- The function `bounce_msg`; `rename_ok` is whether `rename` succeeds.  After a
successful `rename` the name is gone from the queue directory and present in
`../failed/`. -/
def bounce_msg (rename_ok : Bool) (msg : message) (st : State) : Bool × State :=
  let st1 := { st with fout := st.fout ++ [LogLine.moving_message msg.filename] }
  if !rename_ok then
    (false, { st1 with fout := st1.fout ++ [LogLine.cant_rename] })
  else
    (true, { st1 with queue := st1.queue.filter (fun e => e.d_name ≠ msg.filename),
                      failed := st1.failed.insert msg.filename })

/-- The state when `send_one` has returned `res` for `msg` and `rem`: its log lines
are written, and the call is counted and recorded. -/
def after_send_one (res : tristate × List LogLine) (rem : remote) (msg : message)
    (st : State) : State :=
  { st with clock := st.clock + 1, attempts := st.attempts ++ [(rem, msg)],
            fout := st.fout ++ res.2 }

/-- The body of the loop `while(msg)` of `send_all` for the message `msg` under the
cursor: the attempt and the switch on its result.  The boolean says whether the
body ended with `messages.remove(msg)`; otherwise it ended with `msg++`. -/
def send_all_body (env : Env) (c : Consts) (rem : remote) (msg : message) (st : State) :
    Bool × State :=
  let n := st.clock
  let res := send_one c (env.attempt n) msg.filename rem
  let st1 := after_send_one res rem msg st
  match res.1 with
  | tristate.tempfail =>
    if env.time n - msg.timestamp > st1.queuelifetime then
      bounce_msg (env.rename_ok n) msg st1
    else (false, st1)
  | tristate.permfail => bounce_msg (env.rename_ok n) msg st1
  | tristate.success =>
    if !env.unlink_ok n then
      (false, { st1 with fout := st1.fout ++ [LogLine.cant_unlink] })
    else
      (true, { st1 with queue := st1.queue.filter (fun e => e.d_name ≠ msg.filename) })

/-- Modelled from the spec: `list<message>::remove(iter)` (`list.h` is not under
src): "remove-current-and-advance", the iterator is repositioned onto the
successor.  With the entries `before` the cursor and the entries `after` the one
under it, the list that is left. -/
def list_remove (before after : List message) : List message := before ++ after

/-- Modelled from the spec: `iter++` of `list<message>` (`list.h` is not under src):
"advance".  The entries before the cursor once it has passed `msg`. -/
def iter_advance (before : List message) (msg : message) : List message := before ++ [msg]

/-- The loop `while(msg)` of `send_all` for one remote.  The first list holds the
entries the cursor has passed, the cursor is on the head of the second list, and
`messages` is the first list followed by the second. -/
def send_all_messages (env : Env) (c : Consts) (rem : remote) :
    List message → List message → State → State
  | _, [], st => st
  | before, msg :: after, st =>
    let r := send_all_body env c rem msg st
    if r.1 then
      send_all_messages env c rem before after { r.2 with messages := list_remove before after }
    else
      send_all_messages env c rem (iter_advance before msg) after r.2

/-- The loop `for(rlist::iter remote(remotes); remote; remote++)` of `send_all`. -/
def send_all_remotes (env : Env) (c : Consts) : List remote → State → State
  | [], st => st
  | rem :: rest, st =>
    send_all_remotes env c rest (send_all_messages env c rem [] st.messages st)

/-- The function `send_all`; `none` when the reload of the configuration ends in
the constructor of `remote` dereferencing an empty word list. -/
def send_all (env : Env) (c : Consts) (cfg : Config) (st : State) : Option State :=
  match load_config c cfg st with
  | none => none
  | some (false, st1) =>
    some { st1 with fout := st1.fout ++ [LogLine.could_not_load_config] }
  | some (true, st1) =>
    if st1.remotes.length ≤ 0 then
      some { st1 with fout := st1.fout ++ [LogLine.no_remotes] }
    else if st1.messages.length = 0 then some st1
    else
      let st2 := { st1 with fout := st1.fout ++ [LogLine.starting_sweep st1.messages.length] }
      let st3 := send_all_remotes env c st2.remotes st2
      some { st3 with fout := st3.fout ++ [LogLine.delivery_complete st3.messages.length] }

/-! ## The trigger and the sleep -/

/-- The function `open_trigger`; `fd` is what `open` returns. -/
def open_trigger (fd : Int) (st : State) : Bool × State :=
  let st1 := { st with trigger := fd }
  if st1.trigger = -1 then
    (false, { st1 with fout := st1.fout ++ [LogLine.could_not_open_trigger] })
  else (true, st1)

/-- The function `read_trigger`: the pending bytes are read and dropped, the
trigger is closed and opened again. -/
def read_trigger (fd : Int) (st : State) : Bool × State :=
  open_trigger fd st

/-- The lines 380 to 387 of `do_select`: the timeout for `select` is fixed and the
pause for the next round is stored.  The result is `timeout.tv_sec` and the new
state. -/
def do_select_pause (st : State) : Int × State :=
  let st1 := if st.messages.length = 0 then { st with pausetime := st.maxpause } else st
  let timeout := st1.pausetime
  let st2 := { st1 with pausetime := wrapInt (st1.pausetime * 2) }
  let st3 := if st2.pausetime > st2.maxpause then { st2 with pausetime := st2.maxpause } else st2
  (timeout, st3)

/-- The function `do_select`. -/
def do_select (ev : SelectEvent) (st : State) : Bool × State :=
  let st1 := (do_select_pause st).2
  let st2 := { st1 with reload_messages := st1.reload_messages || ev.alrm }
  if ev.s = 1 then
    let st3 := { st2 with fout := st2.fout ++ [LogLine.trigger_pulled] }
    let st4 := (read_trigger ev.trigger_fd st3).2
    let st5 := { st4 with reload_messages := true, pausetime := st4.minpause }
    (true, (load_messages ev.opendir_ok st5).2)
  else if ev.s = -1 ∧ !ev.eintr then
    (false, { st2 with fout := st2.fout ++ [LogLine.select_error] })
  else
    let st3 := if ev.s = 0 then { st2 with reload_messages := true } else st2
    if st3.reload_messages then (true, (load_messages ev.opendir_ok st3).2)
    else (true, st3)

/-! ### The queue scan in closed form -/

/-- The working set a scan of the given directory entries yields according to the
code: one entry, in directory order, for every directory entry whose `stat`
succeeds. -/
def scan_messages (entries : List dirent) : List message :=
  entries.filterMap (fun e => e.st.map (fun s => { timestamp := s.st_mtime, filename := e.d_name }))

/-- The log lines of a scan: one for every entry whose `stat` fails. -/
def scan_log (entries : List dirent) : List LogLine :=
  entries.filterMap (fun e => match e.st with
    | none => some (LogLine.could_not_stat e.d_name)
    | some _ => none)

/-! ### Relations between the states of a sweep -/

/-- The settings a sweep reads but never writes are the same in both states. -/
def same_settings (a b : State) : Prop :=
  b.remotes = a.remotes ∧ b.minpause = a.minpause ∧ b.maxpause = a.maxpause
    ∧ b.pausetime = a.pausetime ∧ b.queuelifetime = a.queuelifetime

/-- The directories of `b` can come from those of `a` by the `unlink` and `rename`
calls of a sweep: no entry of the queue directory is new and no name has left
`../failed/`. -/
def dirs_later (a b : State) : Prop :=
  (∀ e ∈ b.queue, e ∈ a.queue) ∧ (∀ f ∈ a.failed, f ∈ b.failed)

/-- The names in the queue directory. -/
def queue_names (st : State) : List mystring := st.queue.map dirent.d_name

/-! ## Sample inputs -/

/-- The constants as a Linux build has them: `SIGCHLD` is 17, a status word holds
the exit code in bits 8 to 15 and zero in its low seven bits when the child
exited, and the permanent flag is 32. -/
def sample_consts : Consts :=
  { PROTOCOL_DIR := ['/', 'p', '/'], ERR_PERMANENT_FLAG := 32, me := ['m', 'e'],
    parse_args := fun line => some (line.splitOn ' '), SIGCHLD := 17,
    WIFEXITED := fun w => w % 128 = 0, WEXITSTATUS := fun w => (w / 256 % 256).toNat }

/-- The queued message file `m1`, with modification time 1000. -/
def sample_m1 : message := { timestamp := 1000, filename := ['m', '1'] }

/-- A second queued message file, `m2`. -/
def sample_m2 : message := { timestamp := 1000, filename := ['m', '2'] }

/-- The remote the line `mx` of the `remotes` file gives. -/
def sample_mx : remote :=
  { host := ['m', 'x'], proto := default_proto, program := ['/', 'p', '/'] ++ default_proto,
    options := ['h', 'o', 's', 't', '=', 'm', 'x', '\n', '\n'] }

/-- A queue directory as `readdir` lists it: the two directory entries and the
regular file `m1`. -/
def sample_queue : List dirent :=
  [ { d_name := ['.'], st := some { st_mtime := 900, is_regular := false } },
    { d_name := ['.', '.'], st := some { st_mtime := 900, is_regular := false } },
    { d_name := ['m', '1'], st := some { st_mtime := 1000, is_regular := true } } ]

/-- A configuration store that holds only the `remotes` line `mx`. -/
def sample_config : Config :=
  { helohost := none, pausetime := none, maxpause := none, sendtimeout := none,
    queuelifetime := none, remotes := [['m', 'x']] }

/-- A configuration store with `pausetime` 100 and `maxpause` 10. -/
def inverted_config : Config :=
  { sample_config with pausetime := some 100, maxpause := some 10 }

/-- A configuration store with the `remotes` line `mx` and `queuelifetime` 0. -/
def zero_lifetime_config : Config :=
  { sample_config with queuelifetime := some 0 }

/-- An attempt in which the helper runs and exits with the given code. -/
def exits_with (code : Int) : Attempt :=
  { open_ok := true, pipe_ok := true, fork_ok := true, write_ok := true,
    waitsig := [17], waitpid := some (code * 256) }

/-- A world in which every helper exits with `code`, the clock reads `now`, and
`rename` and `unlink` succeed. -/
def sample_env (code : Int) (now : Int) : Env :=
  { attempt := fun _ => exits_with code, time := fun _ => now,
    rename_ok := fun _ => true, unlink_ok := fun _ => true }

/-- The state after start-up with the one message `m1` in the working set. -/
def sample_state : State :=
  { State.init [{ d_name := ['m', '1'], st := some { st_mtime := 1000, is_regular := true } }] []
      with messages := [sample_m1], remotes := [sample_mx] }

/-- A state whose pause is 2^30 seconds, below a `maxpause` of 2^31 - 1. -/
def large_pause_state : State :=
  { sample_state with minpause := 1073741824, pausetime := 1073741824,
                      maxpause := 2147483647 }

/-- The state (60, 86400, 100): the pause had reached the old `maxpause` of 86400
when `load_config` read the new `maxpause` 100. -/
def lowered_maxpause_state : State :=
  { sample_state with pausetime := 86400, maxpause := 100 }

/-- A state with the negative pause -4. -/
def negative_pause_state : State :=
  { sample_state with minpause := -4, pausetime := -4, maxpause := 10 }

/-- A trigger pulse: `select` returns 1 and the trigger and the directory open. -/
def pulse : SelectEvent :=
  { s := 1, eintr := false, alrm := false, trigger_fd := 5, opendir_ok := true }

/-- A trigger pulse after which `opendir(".")` fails, as it does for a queue
directory the daemon may enter but not read. -/
def unreadable_pulse : SelectEvent :=
  { pulse with opendir_ok := false }

/-! ### The options blob as the specification words it -/

/-- An option word with a leading `--` removed when it has one. -/
def strip_dashes : mystring → mystring
  | '-' :: '-' :: tail => tail
  | word => word

/-- The blob the specification describes: the `host=` line, one line per option,
and a closing empty line. -/
def options_blob (host : mystring) (opts : List mystring) : mystring :=
  ['h', 'o', 's', 't', '='] ++ host ++ ['\n']
    ++ (opts.map (fun o => strip_dashes o ++ ['\n'])).flatten ++ ['\n']

/-! ## Theorems: the options blob -/

theorem remote_add_option_eq (options word : mystring) :
    remote_add_option options word = options ++ (strip_dashes word ++ ['\n']) := by
  unfold remote_add_option
  match word with
  | [] => simp [mystring_at, strip_dashes]
  | [a] =>
    by_cases ha : a = '-'
    · subst ha
      simp [mystring_at, strip_dashes]
    · simp [mystring_at, strip_dashes, ha]
  | a :: b :: t =>
    by_cases ha : a = '-'
    · by_cases hb : b = '-'
      · subst ha; subst hb
        simp [mystring_at, strip_dashes, mystring_right]
      · subst ha
        simp [mystring_at, hb]
        unfold strip_dashes
        split
        · rename_i heq
          simp at heq
          exact absurd heq.1 hb
        · rfl
    · simp [mystring_at, ha]
      unfold strip_dashes
      split
      · rename_i heq
        simp at heq
        exact absurd heq.1 ha
      · rfl

theorem foldl_remote_add_option (opts : List mystring) (acc : mystring) :
    opts.foldl remote_add_option acc
      = acc ++ (opts.map (fun o => strip_dashes o ++ ['\n'])).flatten := by
  induction opts generalizing acc with
  | nil => simp
  | cons o os ih =>
    simp only [List.foldl_cons, List.map_cons, List.flatten_cons]
    rw [ih, remote_add_option_eq]
    simp [List.append_assoc]

/-- C4: for a word list `host :: proto :: opts` the constructor builds the blob
`host=<host>\n`, then every option word without its leading `--` and followed by a
newline, in order, then one closing newline; for the lists `[host]` and
`[host, proto]` the blob is `host=<host>\n\n`. -/
theorem remote_options_blob (dir host proto : mystring) (opts : List mystring) :
    (remote.remote dir (host :: proto :: opts)).map remote.options
        = some (options_blob host opts)
      ∧ (remote.remote dir [host]).map remote.options
        = some (['h', 'o', 's', 't', '='] ++ host ++ ['\n', '\n'])
      ∧ (remote.remote dir [host, proto]).map remote.options
        = some (['h', 'o', 's', 't', '='] ++ host ++ ['\n', '\n']) := by
  refine ⟨?_, ?_, ?_⟩
  · simp [remote.remote, options_blob, foldl_remote_add_option, List.append_assoc]
  · simp [remote.remote, List.append_assoc]
  · simp [remote.remote, List.append_assoc]

/-! ## Theorems: the backoff timer -/

theorem wrapInt_of_range (x : Int) (h1 : -2147483648 ≤ x) (h2 : x ≤ 2147483647) :
    wrapInt x = x := by
  unfold wrapInt
  omega

theorem do_select_pause_timeout (st : State) :
    (do_select_pause st).1 = if st.messages = [] then st.maxpause else st.pausetime := by
  unfold do_select_pause
  by_cases h : st.messages = []
  · simp [h]
  · have : st.messages.length ≠ 0 := by simpa using h
    simp [h, this]

theorem do_select_pause_stored (st : State) :
    (do_select_pause st).2.pausetime
      = if wrapInt ((do_select_pause st).1 * 2) > st.maxpause then st.maxpause
        else wrapInt ((do_select_pause st).1 * 2) := by
  unfold do_select_pause
  by_cases h : st.messages.length = 0
  · simp only [h, if_true]
    split <;> simp_all
  · simp only [h, if_false]
    split <;> simp_all

theorem do_select_pause_frame (st : State) :
    (do_select_pause st).2.minpause = st.minpause
      ∧ (do_select_pause st).2.maxpause = st.maxpause
      ∧ (do_select_pause st).2.messages = st.messages := by
  unfold do_select_pause
  by_cases h : st.messages.length = 0
  · simp only [h, if_true]
    split <;> simp
  · simp only [h, if_false]
    split <;> simp

theorem load_messages_loop_eq (entries : List dirent) (st : State) :
    load_messages_loop entries st
      = { st with messages := st.messages ++ scan_messages entries,
                  fout := st.fout ++ scan_log entries } := by
  induction entries generalizing st with
  | nil => simp [load_messages_loop, scan_messages, scan_log]
  | cons e es ih =>
    cases hst : e.st with
    | none => simp [load_messages_loop, hst, ih, scan_messages, scan_log]
    | some s => simp [load_messages_loop, hst, ih, scan_messages, scan_log]

theorem load_messages_backoff (ok : Bool) (st : State) :
    (load_messages ok st).2.minpause = st.minpause
      ∧ (load_messages ok st).2.maxpause = st.maxpause
      ∧ (load_messages ok st).2.pausetime = st.pausetime := by
  unfold load_messages
  cases ok <;> simp [load_messages_loop_eq]

theorem load_messages_minpause (ok : Bool) (st : State) :
    (load_messages ok st).2.minpause = st.minpause :=
  (load_messages_backoff ok st).1
theorem load_messages_maxpause (ok : Bool) (st : State) :
    (load_messages ok st).2.maxpause = st.maxpause :=
  (load_messages_backoff ok st).2.1
theorem load_messages_pausetime (ok : Bool) (st : State) :
    (load_messages ok st).2.pausetime = st.pausetime :=
  (load_messages_backoff ok st).2.2

theorem do_select_backoff (ev : SelectEvent) (st : State) :
    (do_select ev st).2.minpause = st.minpause
      ∧ (do_select ev st).2.maxpause = st.maxpause
      ∧ (do_select ev st).2.pausetime
          = if ev.s = 1 then st.minpause else (do_select_pause st).2.pausetime := by
  obtain ⟨f1, f2, _⟩ := do_select_pause_frame st
  unfold do_select
  by_cases h1 : ev.s = 1
  · simp only [h1, if_true, load_messages_minpause, load_messages_maxpause,
      load_messages_pausetime, read_trigger, open_trigger]
    split <;> simp [f1, f2]
  · by_cases hm : ev.s = -1 ∧ (!ev.eintr) = true
    · simp [h1, hm, f1, f2]
    · by_cases h0 : ev.s = 0
      · simp [h1, hm, h0, f1, f2, load_messages_minpause, load_messages_maxpause,
          load_messages_pausetime]
      · by_cases hr : ((do_select_pause st).2.reload_messages || ev.alrm) = true
        · simp only [h1, hm, h0, hr, if_true, if_false, load_messages_minpause,
            load_messages_maxpause, load_messages_pausetime]
          simp [f1, f2]
        · simp only [h1, hm, h0, hr, if_true, if_false, load_messages_minpause,
            load_messages_maxpause, load_messages_pausetime]
          simp [f1, f2]

theorem load_remotes_frame (c : Consts) (cfg : Config) (st st' : State) (ok : Bool)
    (h : load_remotes c cfg st = some (ok, st')) :
    st'.minpause = st.minpause ∧ st'.maxpause = st.maxpause
      ∧ st'.pausetime = st.pausetime ∧ st'.queuelifetime = st.queuelifetime
      ∧ st'.messages = st.messages ∧ st'.queue = st.queue ∧ st'.failed = st.failed
      ∧ st'.attempts = st.attempts ∧ st'.clock = st.clock
      ∧ (ok = true ↔ st'.remotes ≠ [])
      ∧ (ok = true → st'.fout = st.fout) := by
  unfold load_remotes at h
  cases hl : load_remotes_loop c cfg.remotes [] with
  | none => simp [hl] at h
  | some rs =>
    simp only [hl] at h
    by_cases hr : rs.length = 0
    · simp only [hr, if_true, Option.some.injEq, Prod.mk.injEq] at h
      obtain ⟨h1, h2⟩ := h
      subst h1; subst h2
      have : rs = [] := List.length_eq_zero.mp hr
      simp [this]
    · simp only [hr, if_false, Option.some.injEq, Prod.mk.injEq] at h
      obtain ⟨h1, h2⟩ := h
      subst h1; subst h2
      have : rs ≠ [] := fun e => hr (by simp [e])
      simp [this]

theorem load_config_frame (c : Consts) (cfg : Config) (st st' : State) (ok : Bool)
    (h : load_config c cfg st = some (ok, st')) :
    st'.minpause = cfg.pausetime.getD 60
      ∧ st'.maxpause = cfg.maxpause.getD (24*60*60)
      ∧ st'.queuelifetime = cfg.queuelifetime.getD (7*24*60*60)
      ∧ st'.pausetime = (if cfg.pausetime.getD 60 ≠ st.minpause then cfg.pausetime.getD 60
          else st.pausetime)
      ∧ st'.messages = st.messages ∧ st'.queue = st.queue ∧ st'.failed = st.failed
      ∧ st'.attempts = st.attempts ∧ st'.clock = st.clock
      ∧ (ok = true ↔ st'.remotes ≠ [])
      ∧ (ok = true → st'.fout = st.fout) := by
  unfold load_config at h
  have hf := load_remotes_frame c cfg _ st' ok h
  obtain ⟨a1, a2, a3, a4, a5, a6, a7, a8, a9, a10, a11⟩ := hf
  have e1 : (match cfg.pausetime with | some v => v | none => (60 : Int))
      = cfg.pausetime.getD 60 := by
    cases cfg.pausetime <;> rfl
  have e2 : (match cfg.maxpause with | some v => v | none => (24*60*60 : Int))
      = cfg.maxpause.getD (24*60*60) := by
    cases cfg.maxpause <;> rfl
  have e3 : (match cfg.queuelifetime with | some v => v | none => (7*24*60*60 : Int))
      = cfg.queuelifetime.getD (7*24*60*60) := by
    cases cfg.queuelifetime <;> rfl
  simp only [e1, e2, e3] at a1 a2 a3 a4
  exact ⟨a1, a2, a4, a3, a5, a6, a7, a8, a9, a10, a11⟩

/-- C1 (amended): write `t` for the timeout of the pre-sleep update of `do_select`,
`maxpause` for an empty working set and the current `pausetime` otherwise.  For
every state: the pre-sleep update leaves `pausetime ≤ maxpause`; it leaves
`minpause ≤ pausetime ≤ maxpause` exactly when `minpause ≤ maxpause` and `minpause`
is at most the doubled `t` as the `int` arithmetic gives it, which for `2 * t` in
the range of `int` means exactly when `minpause ≤ maxpause` and `minpause ≤ 2 * t`;
a `do_select` that sees no trigger pulse leaves the invariant exactly when its
pre-sleep update does; the trigger-pulse reset leaves it exactly when
`minpause ≤ maxpause`; and the reset of `load_config` after a change of `minpause`
leaves it exactly when the newly read `minpause` is at most the newly read
`maxpause`. -/
theorem backoff_invariant (st : State) :
    (do_select_pause st).2.pausetime ≤ (do_select_pause st).2.maxpause
      ∧ (backoff_ok (do_select_pause st).2 ↔
          st.minpause ≤ st.maxpause
            ∧ st.minpause
                ≤ wrapInt (2 * (if st.messages = [] then st.maxpause else st.pausetime)))
      ∧ (-2147483648 ≤ 2 * (if st.messages = [] then st.maxpause else st.pausetime) →
          2 * (if st.messages = [] then st.maxpause else st.pausetime) ≤ 2147483647 →
          (backoff_ok (do_select_pause st).2 ↔
            st.minpause ≤ st.maxpause
              ∧ st.minpause ≤ 2 * (if st.messages = [] then st.maxpause else st.pausetime)))
      ∧ (∀ ev : SelectEvent, ev.s ≠ 1 →
          (backoff_ok (do_select ev st).2 ↔ backoff_ok (do_select_pause st).2))
      ∧ (∀ ev : SelectEvent, ev.s = 1 →
          (backoff_ok (do_select ev st).2 ↔ st.minpause ≤ st.maxpause))
      ∧ (∀ (c : Consts) (cfg : Config) (ok : Bool) (st' : State),
          load_config c cfg st = some (ok, st') → st'.minpause ≠ st.minpause →
          (backoff_ok st' ↔ st'.minpause ≤ st'.maxpause)) := by
  obtain ⟨f1, f2, _⟩ := do_select_pause_frame st
  have hs := do_select_pause_stored st
  have ht := do_select_pause_timeout st
  have hw : wrapInt ((do_select_pause st).1 * 2)
      = wrapInt (2 * (if st.messages = [] then st.maxpause else st.pausetime)) := by
    rw [ht, mul_comm]
  rw [hw] at hs
  have hexact : backoff_ok (do_select_pause st).2 ↔
      st.minpause ≤ st.maxpause
        ∧ st.minpause
            ≤ wrapInt (2 * (if st.messages = [] then st.maxpause else st.pausetime)) := by
    unfold backoff_ok
    rw [f1, f2, hs]
    generalize wrapInt (2 * (if st.messages = [] then st.maxpause else st.pausetime)) = w
    split <;> constructor <;> intro h <;> omega
  refine ⟨?_, hexact, ?_, ?_, ?_, ?_⟩
  · rw [f2, hs]
    generalize wrapInt (2 * (if st.messages = [] then st.maxpause else st.pausetime)) = w
    split <;> omega
  · intro hlo hhi
    rw [hexact, wrapInt_of_range _ hlo hhi]
  · intro ev hne
    obtain ⟨d1, d2, d3⟩ := do_select_backoff ev st
    unfold backoff_ok
    rw [d1, d2, d3, if_neg hne, f1, f2]
  · intro ev hev
    obtain ⟨d1, d2, d3⟩ := do_select_backoff ev st
    unfold backoff_ok
    rw [d1, d2, d3, if_pos hev]
    constructor <;> intro h <;> omega
  · intro c cfg ok st' hl hne
    obtain ⟨a1, _, _, a4, _⟩ := load_config_frame c cfg st st' ok hl
    unfold backoff_ok
    rw [a1] at hne
    rw [a4, if_pos hne, a1]
    constructor <;> intro h <;> omega

/-- C1, witness: the start-up state (60, 60, 86400) with one message, before the
sleep and after a trigger pulse, and the state (60, 86400, 100) that `load_config`
leaves when `maxpause` is lowered, where the pre-sleep update restores the
invariant. -/
theorem backoff_invariant_witness :
    backoff_ok (do_select_pause sample_state).2
      ∧ backoff_ok (do_select pulse sample_state).2
      ∧ ¬ backoff_ok lowered_maxpause_state
      ∧ backoff_ok (do_select_pause lowered_maxpause_state).2 :=
  ⟨((backoff_invariant sample_state).2.2.1 (by decide) (by decide)).mpr (by decide),
    ((backoff_invariant sample_state).2.2.2.2.1 pulse (by decide)).mpr (by decide),
    by decide,
    ((backoff_invariant lowered_maxpause_state).2.2.1 (by decide) (by decide)).mpr (by decide)⟩

/-- C1, counterexample: the claim fails (a) after `load_config` reads `pausetime`
100 and `maxpause` 10, where the reset leaves (100, 100, 10), and after a trigger
pulse in that state; (b) for the pause -4, which the doubling takes below
`minpause`; (c) for the pause 2^30, whose doubling leaves the range of `int`. -/
theorem backoff_invariant_fails :
    (∃ st : State, load_config sample_consts inverted_config sample_state = some (true, st)
        ∧ st.minpause ≠ sample_state.minpause ∧ ¬ backoff_ok st
        ∧ ¬ backoff_ok (do_select pulse st).2)
      ∧ (backoff_ok negative_pause_state
          ∧ ¬ backoff_ok (do_select_pause negative_pause_state).2)
      ∧ (backoff_ok large_pause_state
          ∧ ¬ backoff_ok (do_select_pause large_pause_state).2) := by
  refine ⟨⟨_, rfl, ?_, ?_, ?_⟩, ?_, ?_⟩ <;> decide

/-! ## Theorems: the result of a delivery attempt -/

theorem catchsender_reaches_reap (c : Consts) (waitpid : Option Int) (others rest : List Int)
    (hothers : ∀ sig ∈ others, sig ≠ 0 ∧ sig ≠ -1 ∧ sig ≠ c.SIGCHLD)
    (h0 : c.SIGCHLD ≠ 0) (h1 : c.SIGCHLD ≠ -1) :
    catchsender c waitpid (others ++ c.SIGCHLD :: rest) = catchsender_reap c waitpid := by
  induction others with
  | nil => simp [catchsender, h0, h1]
  | cons sig sigs ih =>
    obtain ⟨a, b, d⟩ := hothers sig (by simp)
    simp only [List.cons_append, catchsender, a, b, d, if_false]
    exact ih (fun x hx => hothers x (by simp [hx]))

theorem catchsender_reap_result (c : Consts) (waitpid : Option Int) :
    ((catchsender_reap c waitpid).1 = tristate.success
        ↔ ∃ status, waitpid = some status ∧ c.WIFEXITED status = true
            ∧ c.WEXITSTATUS status = 0)
      ∧ ((catchsender_reap c waitpid).1 = tristate.permfail
        ↔ ∃ status, waitpid = some status ∧ c.WIFEXITED status = true
            ∧ c.WEXITSTATUS status ≠ 0
            ∧ c.WEXITSTATUS status &&& c.ERR_PERMANENT_FLAG ≠ 0)
      ∧ ((catchsender_reap c waitpid).1 = tristate.tempfail
        ↔ waitpid = none ∨ ∃ status, waitpid = some status
            ∧ (c.WIFEXITED status = false
              ∨ (c.WEXITSTATUS status ≠ 0
                ∧ c.WEXITSTATUS status &&& c.ERR_PERMANENT_FLAG = 0))) := by
  cases waitpid with
  | none => simp [catchsender_reap]
  | some status =>
    by_cases hx : c.WIFEXITED status = true
    · by_cases hz : c.WEXITSTATUS status = 0
      · simp [catchsender_reap, hx, hz]
      · by_cases hf : c.WEXITSTATUS status &&& c.ERR_PERMANENT_FLAG = 0
        · simp [catchsender_reap, hx, hz, hf]
        · simp [catchsender_reap, hx, hz, hf]
    · simp [catchsender_reap, hx]

/-- C3: once `catchsender` has seen `SIGCHLD` (after any number of other signals)
and reaps the child, the result is success exactly when the child exited normally
with code 0, permfail exactly when it exited normally with a nonzero code that has
a bit of `ERR_PERMANENT_FLAG` set, and tempfail exactly in the other cases: the
`waitpid` error, a child that did not exit normally, a nonzero code without the
flag. -/
theorem catchsender_result (c : Consts) (waitpid : Option Int) (others rest : List Int)
    (hothers : ∀ sig ∈ others, sig ≠ 0 ∧ sig ≠ -1 ∧ sig ≠ c.SIGCHLD)
    (h0 : c.SIGCHLD ≠ 0) (h1 : c.SIGCHLD ≠ -1) :
    ((catchsender c waitpid (others ++ c.SIGCHLD :: rest)).1 = tristate.success
        ↔ ∃ status, waitpid = some status ∧ c.WIFEXITED status = true
            ∧ c.WEXITSTATUS status = 0)
      ∧ ((catchsender c waitpid (others ++ c.SIGCHLD :: rest)).1 = tristate.permfail
        ↔ ∃ status, waitpid = some status ∧ c.WIFEXITED status = true
            ∧ c.WEXITSTATUS status ≠ 0
            ∧ c.WEXITSTATUS status &&& c.ERR_PERMANENT_FLAG ≠ 0)
      ∧ ((catchsender c waitpid (others ++ c.SIGCHLD :: rest)).1 = tristate.tempfail
        ↔ waitpid = none ∨ ∃ status, waitpid = some status
            ∧ (c.WIFEXITED status = false
              ∨ (c.WEXITSTATUS status ≠ 0
                ∧ c.WEXITSTATUS status &&& c.ERR_PERMANENT_FLAG = 0))) := by
  rw [catchsender_reaches_reap c waitpid others rest hothers h0 h1]
  exact catchsender_reap_result c waitpid

/-- C3, witness: after a `SIGALRM` (14) and the `SIGCHLD` (17), a child that exited
with code 33 gives permfail. -/
theorem catchsender_result_witness :
    (catchsender sample_consts (some (33 * 256)) ([14] ++ sample_consts.SIGCHLD :: [])).1
      = tristate.permfail :=
  (catchsender_result sample_consts (some (33 * 256)) [14] [] (by decide) (by decide)
    (by decide)).2.1.mpr ⟨33 * 256, rfl, by decide, by decide, by decide⟩

/-! ## Theorems: the queue scan -/

theorem load_messages_scan (st : State) :
    (load_messages true st).1 = true
      ∧ (load_messages true st).2.messages = scan_messages st.queue := by
  simp [load_messages, load_messages_loop_eq]

/-- C8: on a queue directory that holds the entries `.` and `..` and the regular
file `m1`, `load_messages` puts all three into the working set, whatever the
working set was before: the two entries that are not regular files are not left
out. -/
theorem load_messages_keeps_directories :
    (load_messages true (State.init sample_queue [])).2.messages
        = [⟨900, ['.']⟩, ⟨900, ['.', '.']⟩, ⟨1000, ['m', '1']⟩]
      ∧ (load_messages true
          { State.init sample_queue [] with messages := [sample_m2] }).2.messages
        = [⟨900, ['.']⟩, ⟨900, ['.', '.']⟩, ⟨1000, ['m', '1']⟩] := by
  decide

/-! ## Theorems: one step of the sweep -/

theorem same_settings_refl (a : State) : same_settings a a := by
  simp [same_settings]

theorem same_settings_trans (a b d : State) (h1 : same_settings a b) (h2 : same_settings b d) :
    same_settings a d := by
  unfold same_settings at *
  obtain ⟨p1, p2, p3, p4, p5⟩ := h1
  obtain ⟨q1, q2, q3, q4, q5⟩ := h2
  exact ⟨q1.trans p1, q2.trans p2, q3.trans p3, q4.trans p4, q5.trans p5⟩

theorem dirs_later_refl (a : State) : dirs_later a a := by
  simp [dirs_later]

theorem dirs_later_trans (a b d : State) (h1 : dirs_later a b) (h2 : dirs_later b d) :
    dirs_later a d :=
  ⟨fun e he => h1.1 e (h2.1 e he), fun f hf => h2.2 f (h1.2 f hf)⟩

theorem bounce_msg_ok (msg : message) (st : State) :
    (bounce_msg true msg st).1 = true
      ∧ same_settings st (bounce_msg true msg st).2
      ∧ dirs_later st (bounce_msg true msg st).2
      ∧ (bounce_msg true msg st).2.messages = st.messages
      ∧ (bounce_msg true msg st).2.clock = st.clock
      ∧ (bounce_msg true msg st).2.attempts = st.attempts
      ∧ msg.filename ∉ queue_names (bounce_msg true msg st).2
      ∧ msg.filename ∈ (bounce_msg true msg st).2.failed := by
  refine ⟨by simp [bounce_msg], by simp [bounce_msg, same_settings], ?_, by simp [bounce_msg],
    by simp [bounce_msg], by simp [bounce_msg], ?_, ?_⟩
  · constructor
    · intro e he
      simp [bounce_msg] at he
      exact he.1
    · intro f hf
      simp [bounce_msg, List.mem_insert_iff, hf]
  · simp [bounce_msg, queue_names, List.mem_map, List.mem_filter]
  · simp [bounce_msg, List.mem_insert_iff]

theorem bounce_msg_fail (msg : message) (st : State) :
    (bounce_msg false msg st).1 = false
      ∧ same_settings st (bounce_msg false msg st).2
      ∧ (bounce_msg false msg st).2.messages = st.messages
      ∧ (bounce_msg false msg st).2.clock = st.clock
      ∧ (bounce_msg false msg st).2.attempts = st.attempts
      ∧ (bounce_msg false msg st).2.queue = st.queue
      ∧ (bounce_msg false msg st).2.failed = st.failed := by
  simp [bounce_msg, same_settings]

theorem bounce_msg_any (ok : Bool) (msg : message) (st : State) :
    same_settings st (bounce_msg ok msg st).2
      ∧ dirs_later st (bounce_msg ok msg st).2
      ∧ (bounce_msg ok msg st).2.messages = st.messages
      ∧ (bounce_msg ok msg st).2.clock = st.clock
      ∧ (bounce_msg ok msg st).2.attempts = st.attempts
      ∧ ((bounce_msg ok msg st).1 = true → msg.filename ∉ queue_names (bounce_msg ok msg st).2) := by
  cases ok with
  | true =>
    obtain ⟨_, a2, a3, a4, a5, a6, a7, _⟩ := bounce_msg_ok msg st
    exact ⟨a2, a3, a4, a5, a6, fun _ => a7⟩
  | false =>
    obtain ⟨a1, a2, a3, a4, a5, a6, a7⟩ := bounce_msg_fail msg st
    refine ⟨a2, ⟨?_, ?_⟩, a3, a4, a5, ?_⟩
    · rw [a6]; exact fun e he => he
    · rw [a7]; exact fun f hf => hf
    · rw [a1]; intro h; cases h

theorem after_send_one_frame (res : tristate × List LogLine) (rem : remote) (msg : message)
    (st : State) :
    same_settings st (after_send_one res rem msg st)
      ∧ dirs_later st (after_send_one res rem msg st)
      ∧ (after_send_one res rem msg st).messages = st.messages
      ∧ (after_send_one res rem msg st).clock = st.clock + 1
      ∧ (after_send_one res rem msg st).attempts = st.attempts ++ [(rem, msg)]
      ∧ (after_send_one res rem msg st).queue = st.queue
      ∧ (after_send_one res rem msg st).failed = st.failed := by
  simp [after_send_one, same_settings, dirs_later]

theorem send_all_body_tempfail (env : Env) (c : Consts) (rem : remote) (msg : message)
    (st : State)
    (h : (send_one c (env.attempt st.clock) msg.filename rem).1 = tristate.tempfail) :
    send_all_body env c rem msg st
      = if env.time st.clock - msg.timestamp > st.queuelifetime then
          bounce_msg (env.rename_ok st.clock) msg
            (after_send_one (send_one c (env.attempt st.clock) msg.filename rem) rem msg st)
        else
          (false, after_send_one (send_one c (env.attempt st.clock) msg.filename rem) rem msg st) := by
  simp only [send_all_body, h]
  rfl

theorem send_all_body_permfail (env : Env) (c : Consts) (rem : remote) (msg : message)
    (st : State)
    (h : (send_one c (env.attempt st.clock) msg.filename rem).1 = tristate.permfail) :
    send_all_body env c rem msg st
      = bounce_msg (env.rename_ok st.clock) msg
          (after_send_one (send_one c (env.attempt st.clock) msg.filename rem) rem msg st) := by
  simp only [send_all_body, h]

theorem send_all_body_success (env : Env) (c : Consts) (rem : remote) (msg : message)
    (st : State)
    (h : (send_one c (env.attempt st.clock) msg.filename rem).1 = tristate.success)
    (hu : env.unlink_ok st.clock = true) :
    send_all_body env c rem msg st
      = (true, { after_send_one (send_one c (env.attempt st.clock) msg.filename rem) rem msg st
          with queue := (after_send_one (send_one c (env.attempt st.clock) msg.filename rem)
            rem msg st).queue.filter (fun e => e.d_name ≠ msg.filename) }) := by
  simp only [send_all_body, h, hu]
  simp

theorem send_all_body_success_kept (env : Env) (c : Consts) (rem : remote) (msg : message)
    (st : State)
    (h : (send_one c (env.attempt st.clock) msg.filename rem).1 = tristate.success)
    (hu : env.unlink_ok st.clock = false) :
    send_all_body env c rem msg st
      = (false, { after_send_one (send_one c (env.attempt st.clock) msg.filename rem) rem msg st
          with fout := (after_send_one (send_one c (env.attempt st.clock) msg.filename rem)
            rem msg st).fout ++ [LogLine.cant_unlink] }) := by
  simp only [send_all_body, h, hu]
  simp

/-- What every run of the loop body does, whatever the attempt gives: the settings
and the working set are untouched, the attempt is recorded, the directories only
lose queue entries and gain failed names, and a removal means the file has left the
queue directory. -/
theorem send_all_body_any (env : Env) (c : Consts) (rem : remote) (msg : message) (st : State) :
    same_settings st (send_all_body env c rem msg st).2
      ∧ dirs_later st (send_all_body env c rem msg st).2
      ∧ (send_all_body env c rem msg st).2.messages = st.messages
      ∧ (send_all_body env c rem msg st).2.clock = st.clock + 1
      ∧ (send_all_body env c rem msg st).2.attempts = st.attempts ++ [(rem, msg)]
      ∧ ((send_all_body env c rem msg st).1 = true
          → msg.filename ∉ queue_names (send_all_body env c rem msg st).2) := by
  obtain ⟨f1, f2, f3, f4, f5, f6, f7⟩ :=
    after_send_one_frame (send_one c (env.attempt st.clock) msg.filename rem) rem msg st
  have hb := bounce_msg_any (env.rename_ok st.clock) msg
    (after_send_one (send_one c (env.attempt st.clock) msg.filename rem) rem msg st)
  obtain ⟨b1, b2, b3, b4, b5, b6⟩ := hb
  have viaBounce :
      same_settings st (bounce_msg (env.rename_ok st.clock) msg
          (after_send_one (send_one c (env.attempt st.clock) msg.filename rem) rem msg st)).2
      ∧ dirs_later st (bounce_msg (env.rename_ok st.clock) msg
          (after_send_one (send_one c (env.attempt st.clock) msg.filename rem) rem msg st)).2
      ∧ (bounce_msg (env.rename_ok st.clock) msg
          (after_send_one (send_one c (env.attempt st.clock) msg.filename rem) rem msg st)).2.messages
          = st.messages
      ∧ (bounce_msg (env.rename_ok st.clock) msg
          (after_send_one (send_one c (env.attempt st.clock) msg.filename rem) rem msg st)).2.clock
          = st.clock + 1
      ∧ (bounce_msg (env.rename_ok st.clock) msg
          (after_send_one (send_one c (env.attempt st.clock) msg.filename rem) rem msg st)).2.attempts
          = st.attempts ++ [(rem, msg)]
      ∧ ((bounce_msg (env.rename_ok st.clock) msg
          (after_send_one (send_one c (env.attempt st.clock) msg.filename rem) rem msg st)).1 = true
          → msg.filename ∉ queue_names (bounce_msg (env.rename_ok st.clock) msg
          (after_send_one (send_one c (env.attempt st.clock) msg.filename rem) rem msg st)).2) :=
    ⟨same_settings_trans _ _ _ f1 b1, dirs_later_trans _ _ _ f2 b2, b3.trans f3, b4.trans f4,
      b5.trans f5, b6⟩
  cases hres : (send_one c (env.attempt st.clock) msg.filename rem).1 with
  | tempfail =>
    rw [send_all_body_tempfail env c rem msg st hres]
    by_cases hold : env.time st.clock - msg.timestamp > st.queuelifetime
    · simp only [hold, if_true]
      exact viaBounce
    · simp only [hold, if_false]
      exact ⟨f1, f2, f3, f4, f5, fun h => by cases h⟩
  | permfail =>
    rw [send_all_body_permfail env c rem msg st hres]
    exact viaBounce
  | success =>
    cases hu : env.unlink_ok st.clock with
    | false =>
      rw [send_all_body_success_kept env c rem msg st hres hu]
      refine ⟨?_, ?_, f3, f4, f5, fun h => by cases h⟩
      · simpa [same_settings] using f1
      · simpa [dirs_later] using f2
    | true =>
      rw [send_all_body_success env c rem msg st hres hu]
      refine ⟨?_, ⟨?_, ?_⟩, f3, f4, f5, ?_⟩
      · simpa [same_settings] using f1
      · intro e he
        simp only [List.mem_filter] at he
        rw [f6] at he
        exact he.1
      · intro f hf
        exact f2.2 f hf
      · intro _
        simp only [queue_names, List.mem_map, List.mem_filter, not_exists, not_and]
        intro e he
        simpa using he.2

/-! ## Theorems: the loops of the sweep -/

theorem send_all_messages_cons (env : Env) (c : Consts) (rem : remote)
    (before after : List message) (msg : message) (st : State) :
    send_all_messages env c rem before (msg :: after) st
      = if (send_all_body env c rem msg st).1 = true then
          send_all_messages env c rem before after
            { (send_all_body env c rem msg st).2 with messages := list_remove before after }
        else
          send_all_messages env c rem (iter_advance before msg) after
            (send_all_body env c rem msg st).2 := by
  simp only [send_all_messages]

theorem send_all_remotes_cons (env : Env) (c : Consts) (rem : remote) (rest : List remote)
    (st : State) :
    send_all_remotes env c (rem :: rest) st
      = send_all_remotes env c rest (send_all_messages env c rem [] st.messages st) := by
  simp only [send_all_remotes]

/-- The loop over the messages for one remote, whatever the attempts give: the
settings stay, the directories only lose queue entries and gain failed names, the
working set keeps the passed entries and a sublist of the others, and every
attempt made is by this remote on an entry from the cursor on. -/
theorem send_all_messages_any (env : Env) (c : Consts) (rem : remote) (after : List message) :
    ∀ (before : List message) (st : State), st.messages = before ++ after →
      same_settings st (send_all_messages env c rem before after st)
        ∧ dirs_later st (send_all_messages env c rem before after st)
        ∧ (∃ kept, kept.Sublist after
            ∧ (send_all_messages env c rem before after st).messages = before ++ kept)
        ∧ (∃ extra, (send_all_messages env c rem before after st).attempts = st.attempts ++ extra
            ∧ ∀ a ∈ extra, a.1 = rem ∧ a.2 ∈ after) := by
  induction after with
  | nil =>
    intro before st hm
    refine ⟨same_settings_refl st, dirs_later_refl st, ⟨[], List.Sublist.refl _, ?_⟩, ⟨[], ?_, ?_⟩⟩
    · simpa [send_all_messages] using hm
    · simp [send_all_messages]
    · intro a ha; cases ha
  | cons msg after ih =>
    intro before st hm
    obtain ⟨b1, b2, b3, _, b5, _⟩ := send_all_body_any env c rem msg st
    rw [send_all_messages_cons]
    by_cases hr : (send_all_body env c rem msg st).1 = true
    · rw [if_pos hr]
      obtain ⟨i1, i2, ⟨kept, k1, k2⟩, ⟨extra, e1, e2⟩⟩ := ih before
        { (send_all_body env c rem msg st).2 with messages := list_remove before after }
        (by simp [list_remove])
      refine ⟨same_settings_trans _ _ _ (by simpa [same_settings] using b1) i1,
        dirs_later_trans _ _ _ (by simpa [dirs_later] using b2) i2,
        ⟨kept, k1.trans (List.sublist_cons_self msg after), k2⟩,
        ⟨(rem, msg) :: extra, ?_, ?_⟩⟩
      · rw [e1]
        simp [b5]
      · intro a ha
        rcases List.mem_cons.mp ha with h | h
        · subst h; simp
        · exact ⟨(e2 a h).1, List.mem_cons_of_mem _ (e2 a h).2⟩
    · rw [if_neg hr]
      obtain ⟨i1, i2, ⟨kept, k1, k2⟩, ⟨extra, e1, e2⟩⟩ := ih (iter_advance before msg)
        (send_all_body env c rem msg st).2 (by simp [iter_advance, b3, hm])
      refine ⟨same_settings_trans _ _ _ b1 i1, dirs_later_trans _ _ _ b2 i2,
        ⟨msg :: kept, k1.cons₂ msg, ?_⟩, ⟨(rem, msg) :: extra, ?_, ?_⟩⟩
      · rw [k2]; simp [iter_advance]
      · rw [e1, b5]; simp
      · intro a ha
        rcases List.mem_cons.mp ha with h | h
        · subst h; simp
        · exact ⟨(e2 a h).1, List.mem_cons_of_mem _ (e2 a h).2⟩

/-- The loop over the remotes, whatever the attempts give: the settings stay, the
directories only lose queue entries and gain failed names, the working set shrinks
to a sublist, and every attempt is by one of the remotes on an entry of the working
set. -/
theorem send_all_remotes_any (env : Env) (c : Consts) (rs : List remote) :
    ∀ st : State,
      same_settings st (send_all_remotes env c rs st)
        ∧ dirs_later st (send_all_remotes env c rs st)
        ∧ (send_all_remotes env c rs st).messages.Sublist st.messages
        ∧ (∃ extra, (send_all_remotes env c rs st).attempts = st.attempts ++ extra
            ∧ ∀ a ∈ extra, a.1 ∈ rs ∧ a.2 ∈ st.messages) := by
  induction rs with
  | nil =>
    intro st
    exact ⟨same_settings_refl st, dirs_later_refl st, List.Sublist.refl _,
      ⟨[], by simp [send_all_remotes], fun a ha => by cases ha⟩⟩
  | cons rem rest ih =>
    intro st
    rw [send_all_remotes_cons]
    obtain ⟨w1, w2, ⟨kept, k1, k2⟩, ⟨x1, e1, e2⟩⟩ :=
      send_all_messages_any env c rem st.messages [] st (by simp)
    obtain ⟨i1, i2, i3, ⟨x2, g1, g2⟩⟩ := ih (send_all_messages env c rem [] st.messages st)
    have hsub : (send_all_messages env c rem [] st.messages st).messages.Sublist st.messages := by
      rw [k2]; simpa using k1
    refine ⟨same_settings_trans _ _ _ w1 i1, dirs_later_trans _ _ _ w2 i2, i3.trans hsub,
      ⟨x1 ++ x2, ?_, ?_⟩⟩
    · rw [g1, e1, List.append_assoc]
    · intro a ha
      rcases List.mem_append.mp ha with h | h
      · exact ⟨by rw [(e2 a h).1]; simp, (e2 a h).2⟩
      · exact ⟨List.mem_cons_of_mem _ (g2 a h).1, hsub.subset (g2 a h).2⟩

/-! ## Theorems: bounced messages -/

theorem not_in_queue_later (a b : State) (name : mystring) (h : dirs_later a b)
    (hn : name ∉ queue_names a) : name ∉ queue_names b := by
  intro hb
  simp only [queue_names, List.mem_map] at hb hn
  obtain ⟨e, he, hname⟩ := hb
  exact hn ⟨e, h.1 e he, hname⟩

/-- Once the loop body has removed `msg` after a successful `rename`, the rest of
the sweep (the other messages for this remote, then the later remotes) leaves the
file out of the queue directory and in `../failed/`, keeps the entry out of the
working set, and attempts only the entries that remain. -/
theorem removed_stays_removed (env : Env) (c : Consts) (rem : remote) (later : List remote)
    (before after : List message) (msg : message) (st : State)
    (hmsgs : st.messages = before ++ msg :: after)
    (hrem : (send_all_body env c rem msg st).1 = true)
    (hfailed : msg.filename ∈ (send_all_body env c rem msg st).2.failed) :
    (send_all_remotes env c later
        (send_all_messages env c rem before (msg :: after) st)).messages.Sublist (before ++ after)
      ∧ (send_all_remotes env c later
          (send_all_messages env c rem before (msg :: after) st)).messages.length
          < st.messages.length
      ∧ msg.filename ∉ queue_names (send_all_remotes env c later
          (send_all_messages env c rem before (msg :: after) st))
      ∧ msg.filename ∈ (send_all_remotes env c later
          (send_all_messages env c rem before (msg :: after) st)).failed
      ∧ ∃ extra, (send_all_remotes env c later
            (send_all_messages env c rem before (msg :: after) st)).attempts
            = st.attempts ++ (rem, msg) :: extra
          ∧ ∀ a ∈ extra, (a.1 = rem ∨ a.1 ∈ later) ∧ a.2 ∈ before ++ after := by
  obtain ⟨_, _, _, _, b5, b6⟩ := send_all_body_any env c rem msg st
  rw [send_all_messages_cons, if_pos hrem]
  obtain ⟨_, w2, ⟨kept, k1, k2⟩, ⟨x1, e1, e2⟩⟩ := send_all_messages_any env c rem after before
    { (send_all_body env c rem msg st).2 with messages := list_remove before after }
    (by simp [list_remove])
  obtain ⟨_, r2, r3, ⟨x2, g1, g2⟩⟩ := send_all_remotes_any env c later
    (send_all_messages env c rem before after
      { (send_all_body env c rem msg st).2 with messages := list_remove before after })
  have hsub : (before ++ kept).Sublist (before ++ after) :=
    List.Sublist.append (List.Sublist.refl before) k1
  have hdirs := dirs_later_trans _ _ _ w2 r2
  have hfin : (send_all_remotes env c later (send_all_messages env c rem before after
      { (send_all_body env c rem msg st).2 with messages := list_remove before after })).messages.Sublist
      (before ++ after) := by
    rw [k2] at r3
    exact r3.trans hsub
  refine ⟨hfin, ?_, ?_, ?_, ⟨x1 ++ x2, ?_, ?_⟩⟩
  · have hlen := hfin.length_le
    rw [hmsgs]
    simp only [List.length_append, List.length_cons] at hlen ⊢
    omega
  · exact not_in_queue_later _ _ _ hdirs (by simpa [queue_names] using b6 hrem)
  · exact hdirs.2 _ (by simpa using hfailed)
  · rw [g1, e1]
    simp [b5]
  · intro a ha
    rcases List.mem_append.mp ha with h | h
    · exact ⟨Or.inl (e2 a h).1, List.mem_append_right _ (e2 a h).2⟩
    · refine ⟨Or.inr (g2 a h).1, hsub.subset ?_⟩
      rw [← k2]
      exact (g2 a h).2

/-- C7: when the attempt on the message under the cursor returns permfail, then (a)
if the `rename` succeeds the body removes the entry, and at the end of the sweep
the working set is a sublist of the other entries and shorter than before, the file
is not in the queue directory, it is in `../failed/`, and every later attempt of
the sweep, by this or a later remote, is on one of the other entries, so that the
message is not attempted again unless the working set held a second copy of it;
(b) if the `rename` fails the body advances the cursor, and the working set, the
queue directory and `../failed/` are as before, the loop going on behind the
entry. -/
theorem permfail_outcome (env : Env) (c : Consts) (rem : remote) (later : List remote)
    (before after : List message) (msg : message) (st : State)
    (hmsgs : st.messages = before ++ msg :: after)
    (hperm : (send_one c (env.attempt st.clock) msg.filename rem).1 = tristate.permfail) :
    (env.rename_ok st.clock = true →
        (send_all_body env c rem msg st).1 = true
        ∧ (send_all_remotes env c later
            (send_all_messages env c rem before (msg :: after) st)).messages.Sublist
              (before ++ after)
        ∧ (send_all_remotes env c later
            (send_all_messages env c rem before (msg :: after) st)).messages.length
            < st.messages.length
        ∧ msg.filename ∉ queue_names (send_all_remotes env c later
            (send_all_messages env c rem before (msg :: after) st))
        ∧ msg.filename ∈ (send_all_remotes env c later
            (send_all_messages env c rem before (msg :: after) st)).failed
        ∧ ∃ extra, (send_all_remotes env c later
              (send_all_messages env c rem before (msg :: after) st)).attempts
              = st.attempts ++ (rem, msg) :: extra
            ∧ (∀ a ∈ extra, (a.1 = rem ∨ a.1 ∈ later) ∧ a.2 ∈ before ++ after)
            ∧ (msg ∉ before ++ after → ∀ r : remote, (r, msg) ∉ extra))
      ∧ (env.rename_ok st.clock = false →
        (send_all_body env c rem msg st).1 = false
        ∧ (send_all_body env c rem msg st).2.messages = before ++ msg :: after
        ∧ (send_all_body env c rem msg st).2.queue = st.queue
        ∧ (send_all_body env c rem msg st).2.failed = st.failed
        ∧ send_all_messages env c rem before (msg :: after) st
            = send_all_messages env c rem (before ++ [msg]) after
                (send_all_body env c rem msg st).2) := by
  obtain ⟨_, _, f3, _, _, f6, f7⟩ :=
    after_send_one_frame (send_one c (env.attempt st.clock) msg.filename rem) rem msg st
  constructor
  · intro hok
    have hbody := send_all_body_permfail env c rem msg st hperm
    rw [hok] at hbody
    obtain ⟨o1, _, _, _, _, _, _, o8⟩ := bounce_msg_ok msg
      (after_send_one (send_one c (env.attempt st.clock) msg.filename rem) rem msg st)
    have hrem : (send_all_body env c rem msg st).1 = true := by rw [hbody]; exact o1
    have hfailed : msg.filename ∈ (send_all_body env c rem msg st).2.failed := by
      rw [hbody]; exact o8
    obtain ⟨r1, r2, r3, r4, extra, r5, r6⟩ :=
      removed_stays_removed env c rem later before after msg st hmsgs hrem hfailed
    exact ⟨hrem, r1, r2, r3, r4, extra, r5, r6, fun hnot r hin => hnot (r6 (r, msg) hin).2⟩
  · intro hfail
    have hbody := send_all_body_permfail env c rem msg st hperm
    rw [hfail] at hbody
    obtain ⟨o1, _, o3, _, _, o6, o7⟩ := bounce_msg_fail msg
      (after_send_one (send_one c (env.attempt st.clock) msg.filename rem) rem msg st)
    have hkept : (send_all_body env c rem msg st).1 = false := by rw [hbody]; exact o1
    refine ⟨hkept, ?_, ?_, ?_, ?_⟩
    · rw [hbody, o3, f3, hmsgs]
    · rw [hbody, o6, f6]
    · rw [hbody, o7, f7]
    · rw [send_all_messages_cons, if_neg (by simp [hkept])]
      rfl

/-- C7, witness: the helper exits with code 33 on the one queued message `m1` and
the `rename` succeeds. -/
theorem permfail_outcome_witness :
    (send_all_body (sample_env 33 2000) sample_consts sample_mx sample_m1 sample_state).1 = true
      ∧ sample_m1.filename ∈ (send_all_remotes (sample_env 33 2000) sample_consts []
          (send_all_messages (sample_env 33 2000) sample_consts sample_mx [] (sample_m1 :: [])
            sample_state)).failed := by
  have h := (permfail_outcome (sample_env 33 2000) sample_consts sample_mx [] [] [] sample_m1 sample_state
    (by decide) (by decide)).1 (by decide)
  exact ⟨h.1, h.2.2.2.2.1⟩

/-- C6 (amended): with `queuelifetime` 0, when the attempt on the message under the
cursor returns tempfail at a clock reading strictly later than the message's
timestamp and the `rename` succeeds, the body removes the entry, and at the end of
the same sweep the working set is a sublist of the other entries and shorter than
before, the file is not in the queue directory and it is in `../failed/`. -/
theorem expired_tempfail_outcome (env : Env) (c : Consts) (rem : remote) (later : List remote)
    (before after : List message) (msg : message) (st : State)
    (hmsgs : st.messages = before ++ msg :: after)
    (htemp : (send_one c (env.attempt st.clock) msg.filename rem).1 = tristate.tempfail)
    (hlife : st.queuelifetime = 0)
    (hold : msg.timestamp < env.time st.clock)
    (hren : env.rename_ok st.clock = true) :
    (send_all_body env c rem msg st).1 = true
      ∧ (send_all_remotes env c later
          (send_all_messages env c rem before (msg :: after) st)).messages.Sublist
            (before ++ after)
      ∧ (send_all_remotes env c later
          (send_all_messages env c rem before (msg :: after) st)).messages.length
          < st.messages.length
      ∧ msg.filename ∉ queue_names (send_all_remotes env c later
          (send_all_messages env c rem before (msg :: after) st))
      ∧ msg.filename ∈ (send_all_remotes env c later
          (send_all_messages env c rem before (msg :: after) st)).failed := by
  have hbody := send_all_body_tempfail env c rem msg st htemp
  rw [hlife, if_pos (by omega), hren] at hbody
  obtain ⟨o1, _, _, _, _, _, _, o8⟩ := bounce_msg_ok msg
    (after_send_one (send_one c (env.attempt st.clock) msg.filename rem) rem msg st)
  have hrem : (send_all_body env c rem msg st).1 = true := by rw [hbody]; exact o1
  have hfailed : msg.filename ∈ (send_all_body env c rem msg st).2.failed := by
    rw [hbody]; exact o8
  obtain ⟨r1, r2, r3, r4, _⟩ :=
    removed_stays_removed env c rem later before after msg st hmsgs hrem hfailed
  exact ⟨hrem, r1, r2, r3, r4⟩

/-- C6, witness: `queuelifetime` 0, the helper exits with code 75 on `m1`
(timestamp 1000) when the clock reads 2000. -/
theorem expired_tempfail_outcome_witness :
    sample_m1.filename ∉ queue_names (send_all_remotes (sample_env 75 2000) sample_consts []
        (send_all_messages (sample_env 75 2000) sample_consts sample_mx [] (sample_m1 :: [])
          { sample_state with queuelifetime := 0 }))
      ∧ sample_m1.filename ∈ (send_all_remotes (sample_env 75 2000) sample_consts []
        (send_all_messages (sample_env 75 2000) sample_consts sample_mx [] (sample_m1 :: [])
          { sample_state with queuelifetime := 0 })).failed := by
  have h := expired_tempfail_outcome (sample_env 75 2000) sample_consts sample_mx [] [] [] sample_m1
    { sample_state with queuelifetime := 0 } (by decide) (by decide) (by decide) (by decide)
    (by decide)
  exact ⟨h.2.2.2.1, h.2.2.2.2⟩

/-- C6, counterexample: `queuelifetime` is 0, the message `m1` has timestamp 1000,
the clock reads 1000 (the timestamp is not later than the current time), the
helper exits with code 75 and `rename` would succeed; after the sweep `m1` is still
in the working set and in the queue directory, and not in `../failed/`. -/
theorem tempfail_same_second_stays :
    ∃ fin : State,
      send_all (sample_env 75 1000) sample_consts zero_lifetime_config sample_state = some fin
        ∧ fin.queuelifetime = 0
        ∧ (send_one sample_consts ((sample_env 75 1000).attempt 0) sample_m1.filename sample_mx).1
            = tristate.tempfail
        ∧ sample_m1 ∈ fin.messages
        ∧ sample_m1.filename ∈ queue_names fin
        ∧ sample_m1.filename ∉ fin.failed
        ∧ fin.attempts = [(sample_mx, sample_m1)] := by
  refine ⟨_, rfl, ?_, ?_, ?_, ?_, ?_, ?_⟩ <;> decide

/-! ## Theorems: whole sweeps -/

theorem send_all_of_loaded (env : Env) (c : Consts) (cfg : Config) (st st1 : State)
    (hload : load_config c cfg st = some (true, st1)) (hne : st.messages ≠ []) :
    send_all env c cfg st
      = some { send_all_remotes env c st1.remotes
                { st1 with fout := st1.fout ++ [LogLine.starting_sweep st1.messages.length] }
          with fout := (send_all_remotes env c st1.remotes
                { st1 with fout := st1.fout ++ [LogLine.starting_sweep st1.messages.length] }).fout
              ++ [LogLine.delivery_complete (send_all_remotes env c st1.remotes
                { st1 with fout := st1.fout ++ [LogLine.starting_sweep st1.messages.length] }).messages.length] } := by
  obtain ⟨_, _, _, _, a5, _, _, _, _, a10, _⟩ := load_config_frame c cfg st st1 true hload
  have hr : ¬ st1.remotes.length ≤ 0 := by
    have := a10.mp rfl
    have : st1.remotes.length ≠ 0 := fun h => this (List.length_eq_zero.mp h)
    omega
  have hm : ¬ st1.messages.length = 0 := by
    rw [a5]
    exact fun h => hne (List.length_eq_zero.mp h)
  simp only [send_all, hload, hr, hm, if_false]

theorem send_all_of_loaded_idle (env : Env) (c : Consts) (cfg : Config) (st st1 : State)
    (hload : load_config c cfg st = some (true, st1)) (he : st.messages = []) :
    send_all env c cfg st = some st1 := by
  obtain ⟨_, _, _, _, a5, _, _, _, _, a10, _⟩ := load_config_frame c cfg st st1 true hload
  have hr : ¬ st1.remotes.length ≤ 0 := by
    have := a10.mp rfl
    have : st1.remotes.length ≠ 0 := fun h => this (List.length_eq_zero.mp h)
    omega
  have hm : st1.messages.length = 0 := by
    rw [a5, he]; rfl
  simp only [send_all, hload, hr, hm, if_false, if_true]

theorem send_all_remotes_idle (env : Env) (c : Consts) (rs : List remote) :
    ∀ st : State, st.messages = [] → send_all_remotes env c rs st = st := by
  induction rs with
  | nil => intro st _; rfl
  | cons rem rest ih =>
    intro st h
    rw [send_all_remotes_cons, h]
    simp only [send_all_messages]
    exact ih st h

/-- The loop over the messages for one remote when every attempt succeeds and every
`unlink` succeeds: every entry from the cursor on is attempted once, unlinked and
removed. -/
theorem send_all_messages_success (env : Env) (c : Consts) (rem : remote)
    (hsucc : ∀ n f r, (send_one c (env.attempt n) f r).1 = tristate.success)
    (hunlink : ∀ n, env.unlink_ok n = true) (after : List message) :
    ∀ (before : List message) (st : State), st.messages = before ++ after →
      (send_all_messages env c rem before after st).messages = before
        ∧ (∀ m ∈ after, m.filename ∉ queue_names (send_all_messages env c rem before after st))
        ∧ (send_all_messages env c rem before after st).attempts
            = st.attempts ++ after.map (fun m => (rem, m))
        ∧ (send_all_messages env c rem before after st).remotes = st.remotes := by
  induction after with
  | nil =>
    intro before st hm
    simp [send_all_messages, hm]
  | cons msg after ih =>
    intro before st hm
    obtain ⟨b1, _, _, _, b5, b6⟩ := send_all_body_any env c rem msg st
    have hbody := send_all_body_success env c rem msg st (hsucc _ _ _) (hunlink _)
    have hrem : (send_all_body env c rem msg st).1 = true := by rw [hbody]
    rw [send_all_messages_cons, if_pos hrem]
    obtain ⟨i1, i2, i3, i4⟩ := ih before
      { (send_all_body env c rem msg st).2 with messages := list_remove before after }
      (by simp [list_remove])
    obtain ⟨_, w2, _, _⟩ := send_all_messages_any env c rem after before
      { (send_all_body env c rem msg st).2 with messages := list_remove before after }
      (by simp [list_remove])
    refine ⟨i1, ?_, ?_, ?_⟩
    · intro m hmem
      rcases List.mem_cons.mp hmem with h | h
      · subst h
        exact not_in_queue_later _ _ _ w2 (by simpa [queue_names] using b6 hrem)
      · exact i2 m h
    · rw [i3]
      simp [b5]
    · rw [i4]
      exact b1.1

/-- C5: when the configuration loads (so the remote list is not empty), every
delivery attempt returns success and every `unlink` succeeds, `send_all` returns,
the working set is empty afterwards, no file of the working set is in the queue
directory, and the attempts made are one per message, in order, all against the
first remote of the list; when there was a message, the last log line is
"Delivery complete, 0 message(s) remain." -/
theorem send_all_success (env : Env) (c : Consts) (cfg : Config) (st st1 : State)
    (hload : load_config c cfg st = some (true, st1))
    (hsucc : ∀ n f r, (send_one c (env.attempt n) f r).1 = tristate.success)
    (hunlink : ∀ n, env.unlink_ok n = true) :
    ∃ (fin : State) (first : remote) (rest : List remote),
      send_all env c cfg st = some fin
        ∧ fin.remotes = first :: rest
        ∧ fin.messages = []
        ∧ (∀ m ∈ st.messages, m.filename ∉ queue_names fin)
        ∧ fin.attempts = st.attempts ++ st.messages.map (fun m => (first, m))
        ∧ (st.messages ≠ [] → fin.fout.getLast? = some (LogLine.delivery_complete 0)) := by
  obtain ⟨_, _, _, _, a5, _, _, a8, _, a10, _⟩ := load_config_frame c cfg st st1 true hload
  have hrs := a10.mp rfl
  obtain ⟨first, rest, hfr⟩ := List.exists_cons_of_ne_nil hrs
  by_cases he : st.messages = []
  · refine ⟨st1, first, rest, send_all_of_loaded_idle env c cfg st st1 hload he, hfr, ?_, ?_, ?_, ?_⟩
    · rw [a5, he]
    · rw [he]; intro m hm; cases hm
    · rw [a8, he]; simp
    · exact fun h => absurd he h
  · have hsw : ∀ X : State, send_all_remotes env c st1.remotes X
        = send_all_remotes env c rest (send_all_messages env c first [] X.messages X) := by
      intro X
      rw [hfr, send_all_remotes_cons]
    rw [send_all_of_loaded env c cfg st st1 hload he, hsw]
    obtain ⟨s1, s2, s3, s4⟩ := send_all_messages_success env c first hsucc hunlink st1.messages []
      { st1 with fout := st1.fout ++ [LogLine.starting_sweep st1.messages.length] } (by simp)
    dsimp only
    rw [send_all_remotes_idle env c rest _ s1]
    refine ⟨_, first, rest, rfl, ?_, ?_, ?_, ?_, ?_⟩
    · simpa [hfr] using s4
    · simpa using s1
    · intro m hm
      have := s2 m (by rw [a5]; exact hm)
      simpa [queue_names] using this
    · rw [s3]
      simp only [a8, a5]
    · intro _
      simp [s1]

/-- C5, witness: one remote, the one message `m1`, the helper exits with code 0. -/
theorem send_all_success_witness :
    ∃ (fin : State) (first : remote) (rest : List remote),
      send_all (sample_env 0 2000) sample_consts sample_config sample_state = some fin
        ∧ fin.remotes = first :: rest
        ∧ fin.messages = []
        ∧ (∀ m ∈ sample_state.messages, m.filename ∉ queue_names fin)
        ∧ fin.attempts = sample_state.attempts ++ sample_state.messages.map (fun m => (first, m))
        ∧ (sample_state.messages ≠ [] →
            fin.fout.getLast? = some (LogLine.delivery_complete 0)) :=
  send_all_success (sample_env 0 2000) sample_consts sample_config sample_state
    { sample_state with HELOHOST := ['m', 'e'] } (by decide) (by intro n f r; rfl)
    (by intro n; rfl)

/-- The loop over the messages for one remote when every attempt returns tempfail
and no entry is older than `queuelifetime`: every entry from the cursor on is
attempted once and the cursor advances past it. -/
theorem send_all_messages_tempfail (env : Env) (c : Consts) (rem : remote)
    (htemp : ∀ n f r, (send_one c (env.attempt n) f r).1 = tristate.tempfail)
    (after : List message) :
    ∀ (before : List message) (st : State),
      (∀ n, ∀ m ∈ after, ¬ (env.time n - m.timestamp > st.queuelifetime)) →
      (send_all_messages env c rem before after st).messages = st.messages
        ∧ (send_all_messages env c rem before after st).queue = st.queue
        ∧ (send_all_messages env c rem before after st).failed = st.failed
        ∧ (send_all_messages env c rem before after st).queuelifetime = st.queuelifetime
        ∧ (send_all_messages env c rem before after st).attempts
            = st.attempts ++ after.map (fun m => (rem, m)) := by
  induction after with
  | nil =>
    intro before st _
    simp [send_all_messages]
  | cons msg after ih =>
    intro before st hy
    obtain ⟨f1, _, f3, _, f5, f6, f7⟩ :=
      after_send_one_frame (send_one c (env.attempt st.clock) msg.filename rem) rem msg st
    have hbody := send_all_body_tempfail env c rem msg st (htemp _ _ _)
    rw [if_neg (hy st.clock msg (by simp))] at hbody
    have hkept : ¬ (send_all_body env c rem msg st).1 = true := by rw [hbody]; simp
    rw [send_all_messages_cons, if_neg hkept, hbody]
    obtain ⟨i1, i2, i3, i4, i5⟩ := ih (iter_advance before msg)
      (after_send_one (send_one c (env.attempt st.clock) msg.filename rem) rem msg st)
      (by
        intro n m hm
        rw [f1.2.2.2.2]
        exact hy n m (List.mem_cons_of_mem _ hm))
    refine ⟨i1.trans f3, i2.trans f6, i3.trans f7, i4.trans f1.2.2.2.2, ?_⟩
    rw [i5, f5]
    simp

/-- The loop over the remotes when every attempt returns tempfail and no entry is
older than `queuelifetime`. -/
theorem send_all_remotes_tempfail (env : Env) (c : Consts)
    (htemp : ∀ n f r, (send_one c (env.attempt n) f r).1 = tristate.tempfail)
    (rs : List remote) :
    ∀ st : State,
      (∀ n, ∀ m ∈ st.messages, ¬ (env.time n - m.timestamp > st.queuelifetime)) →
      (send_all_remotes env c rs st).messages = st.messages
        ∧ (send_all_remotes env c rs st).queue = st.queue
        ∧ (send_all_remotes env c rs st).failed = st.failed
        ∧ (send_all_remotes env c rs st).attempts
            = st.attempts ++ (rs.map (fun r => st.messages.map (fun m => (r, m)))).flatten := by
  induction rs with
  | nil =>
    intro st _
    simp [send_all_remotes]
  | cons rem rest ih =>
    intro st hy
    rw [send_all_remotes_cons]
    obtain ⟨w1, w2, w3, w4, w5⟩ := send_all_messages_tempfail env c rem htemp st.messages [] st hy
    obtain ⟨i1, i2, i3, i4⟩ := ih (send_all_messages env c rem [] st.messages st)
      (by rw [w1, w4]; exact hy)
    refine ⟨i1.trans w1, i2.trans w2, i3.trans w3, ?_⟩
    rw [i4, w5, w1]
    simp

/-- C9: when the configuration loads with the remotes `r_1 .. r_k`, every delivery
attempt returns tempfail and no message of the working set `m_1 .. m_n` is older
than `queuelifetime`, `send_all` returns, the attempts it makes are
`(r_1, m_1), ..., (r_1, m_n), (r_2, m_1), ..., (r_k, m_n)` in this order, `k * n` in
number, and the working set, the queue directory and `../failed/` are as
before. -/
theorem send_all_tempfail (env : Env) (c : Consts) (cfg : Config) (st st1 : State)
    (hload : load_config c cfg st = some (true, st1))
    (htemp : ∀ n f r, (send_one c (env.attempt n) f r).1 = tristate.tempfail)
    (hyoung : ∀ n, ∀ m ∈ st.messages, ¬ (env.time n - m.timestamp > st1.queuelifetime)) :
    ∃ fin : State,
      send_all env c cfg st = some fin
        ∧ fin.remotes = st1.remotes
        ∧ fin.remotes ≠ []
        ∧ fin.messages = st.messages
        ∧ fin.queue = st.queue
        ∧ fin.failed = st.failed
        ∧ fin.attempts = st.attempts
            ++ (fin.remotes.map (fun r => st.messages.map (fun m => (r, m)))).flatten
        ∧ fin.attempts.length = st.attempts.length + fin.remotes.length * st.messages.length := by
  obtain ⟨_, _, _, _, a5, a6, a7, a8, _, a10, _⟩ := load_config_frame c cfg st st1 true hload
  have hrs := a10.mp rfl
  have hlen : ∀ (rs : List remote) (ms : List message),
      ((rs.map (fun r => ms.map (fun m => (r, m)))).flatten).length = rs.length * ms.length := by
    intro rs ms
    induction rs with
    | nil => simp
    | cons r rs ih =>
      simp only [List.map_cons, List.flatten_cons, List.length_append, List.length_map, ih,
        List.length_cons]
      ring
  by_cases he : st.messages = []
  · refine ⟨st1, send_all_of_loaded_idle env c cfg st st1 hload he, rfl, hrs, ?_, a6, a7, ?_, ?_⟩
    · rw [a5]
    · rw [a8, he]; simp
    · rw [a8, he]; simp
  · rw [send_all_of_loaded env c cfg st st1 hload he]
    obtain ⟨so, _, _, _⟩ := send_all_remotes_any env c st1.remotes
      { st1 with fout := st1.fout ++ [LogLine.starting_sweep st1.messages.length] }
    obtain ⟨t1, t2, t3, t4⟩ := send_all_remotes_tempfail env c htemp st1.remotes
      { st1 with fout := st1.fout ++ [LogLine.starting_sweep st1.messages.length] }
      (by
        intro n m hm
        exact hyoung n m (by rw [← a5]; simpa using hm))
    have hrem : (send_all_remotes env c st1.remotes
        { st1 with fout := st1.fout ++ [LogLine.starting_sweep st1.messages.length] }).remotes
        = st1.remotes := so.1
    refine ⟨_, rfl, ?_, ?_, ?_, ?_, ?_, ?_, ?_⟩
    · simpa using hrem
    · simpa [hrem] using hrs
    · simpa [a5] using t1
    · simpa [a6] using t2
    · simpa [a7] using t3
    · rw [hrem, t4]
      simp only [a8, a5]
    · rw [hrem, t4]
      simp only [a8, a5, List.length_append, hlen]

/-- C9, witness: one remote, the one message `m1` (timestamp 1000), the helper
exits with code 75 and the clock reads 2000, within the default `queuelifetime`. -/
theorem send_all_tempfail_witness :
    ∃ fin : State,
      send_all (sample_env 75 2000) sample_consts sample_config sample_state = some fin
        ∧ fin.messages = [sample_m1]
        ∧ fin.attempts = [(sample_mx, sample_m1)] := by
  obtain ⟨fin, h1, h2, _, h4, _, _, h7, _⟩ :=
    send_all_tempfail (sample_env 75 2000) sample_consts sample_config sample_state
      { sample_state with HELOHOST := ['m', 'e'] } (by decide) (by intro n f r; rfl)
      (by
        intro n m hm
        simp only [sample_state, List.mem_singleton] at hm
        subst hm
        show ¬ ((2000 : Int) - 1000 > 604800)
        decide)
  refine ⟨fin, h1, h4, ?_⟩
  rw [h7, h2]
  decide

/-! ## Theorems: the sleep after a trigger pulse -/

theorem send_all_settings (env : Env) (c : Consts) (cfg : Config) (st fin : State)
    (h : send_all env c cfg st = some fin) :
    ∃ (ok : Bool) (st1 : State), load_config c cfg st = some (ok, st1) ∧ same_settings st1 fin := by
  unfold send_all at h
  cases hl : load_config c cfg st with
  | none => simp [hl] at h
  | some p =>
    obtain ⟨ok, st1⟩ := p
    refine ⟨ok, st1, rfl, ?_⟩
    cases ok with
    | false =>
      simp only [hl, Option.some.injEq] at h
      subst h
      simp [same_settings]
    | true =>
      simp only [hl] at h
      by_cases hr : st1.remotes.length ≤ 0
      · rw [if_pos hr] at h
        simp only [Option.some.injEq] at h
        subst h
        simp [same_settings]
      · rw [if_neg hr] at h
        by_cases hm : st1.messages.length = 0
        · rw [if_pos hm] at h
          simp only [Option.some.injEq] at h
          subst h
          exact same_settings_refl st1
        · rw [if_neg hm] at h
          simp only [Option.some.injEq] at h
          subst h
          obtain ⟨so, _, _, _⟩ := send_all_remotes_any env c st1.remotes
            { st1 with fout := st1.fout ++ [LogLine.starting_sweep st1.messages.length] }
          simpa [same_settings] using so

/-- C2 (amended): when `do_select` observes a trigger pulse and the following
`send_all` returns, the timeout the next `do_select` passes to `select` is the
`minpause` then in force if the working set is not empty at that call, and
`maxpause` if it is empty. -/
theorem timeout_after_pulse (env : Env) (c : Consts) (cfg : Config) (ev : SelectEvent)
    (st fin : State) (hs : ev.s = 1)
    (hsend : send_all env c cfg (do_select ev st).2 = some fin) :
    (do_select_pause fin).1 = if fin.messages = [] then fin.maxpause else fin.minpause := by
  obtain ⟨ok, st1, hl, hsame⟩ := send_all_settings env c cfg _ fin hsend
  obtain ⟨a1, _, _, a4, _⟩ := load_config_frame c cfg _ st1 ok hl
  obtain ⟨d1, _, d3⟩ := do_select_backoff ev st
  rw [if_pos hs] at d3
  have hp : st1.pausetime = st1.minpause := by
    rw [a4, a1]
    split
    · rfl
    · rename_i hc
      have hc2 : cfg.pausetime.getD 60 = (do_select ev st).2.minpause := by
        by_contra hne
        exact hc hne
      rw [d3, hc2, d1]
  obtain ⟨_, s2, _, s4, _⟩ := hsame
  rw [do_select_pause_timeout, s4, hp, s2]

/-- C2, witness: after the pulse the helper exits with code 75, the message stays,
and the next timeout is the `minpause` of 60 seconds. -/
theorem timeout_after_pulse_witness :
    ∃ fin : State,
      send_all (sample_env 75 2000) sample_consts sample_config (do_select pulse sample_state).2
          = some fin
        ∧ (do_select_pause fin).1 = if fin.messages = [] then fin.maxpause else fin.minpause :=
  ⟨_, rfl, timeout_after_pulse (sample_env 75 2000) sample_consts sample_config pulse
    sample_state _ rfl rfl⟩

/-- C2, counterexample: (a) the queue directory cannot be read, so the working set
is empty; a trigger pulse is observed, the rescan fails, the following `send_all`
returns, and the next `do_select` passes 86400, the `maxpause`, to `select`, while
`minpause` is 60; (b) a trigger pulse is observed, the rescan finds the one
message `m1`, the following sweep delivers it (the helper exits with code 0), and
the next `do_select` again passes 86400. -/
theorem pulse_then_empty_queue :
    (∃ fin : State,
      send_all (sample_env 0 2000) sample_consts sample_config
          (do_select unreadable_pulse (State.init sample_queue [])).2 = some fin
        ∧ fin.messages = []
        ∧ fin.minpause = 60
        ∧ (do_select_pause fin).1 = 86400
        ∧ (do_select_pause fin).1 ≠ fin.minpause)
      ∧ (∃ fin : State,
      send_all (sample_env 0 2000) sample_consts sample_config (do_select pulse sample_state).2
          = some fin
        ∧ (do_select pulse sample_state).2.messages = [sample_m1]
        ∧ fin.messages = []
        ∧ fin.minpause = 60
        ∧ (do_select_pause fin).1 = 86400
        ∧ (do_select_pause fin).1 ≠ fin.minpause) := by
  constructor
  · refine ⟨_, rfl, ?_, ?_, ?_, ?_⟩ <;> decide
  · refine ⟨_, rfl, ?_, ?_, ?_, ?_, ?_⟩ <;> decide

end Nullmailer
